import Mathlib

/-!
Verification development for the content negotiation and streaming core of the
go-chi/render repository.  The embedding covers: the outcome model of the Go
standard library function mime.ParseMediaType (as used by this repository),
the ordered ContentTypeSet with its movable cursor, the responder registry
with SetResponder / SupportedResponders, DefaultResponder with its
decline-and-retry negotiation loop and fallback, the channel adapters
channelEventStream and channelIntoSlice, and the decoder registry with
SetDecoder / SupportedDecoders / DefaultDecoder.

Effects on the http.ResponseWriter are modelled as an explicit trace of sink
operations.  External marshalling (encoding/json, encoding/xml, MarshalText)
is modelled as an oracle carried by the value being rendered, since the codecs
are external collaborators of this repository.  The Go registry maps are
modelled as key-unique association lists; a nil Go function stored in a map is
modelled as a present key whose value is none.
-/

namespace Render

/-- Unicode White_Space code points, matching unicode.IsSpace in Go, which is
what strings.TrimSpace and strings.TrimLeftFunc use inside mime parsing. -/
def goIsSpace (c : Char) : Bool :=
  [0x9, 0xA, 0xB, 0xC, 0xD, 0x20, 0x85, 0xA0, 0x1680,
   0x2000, 0x2001, 0x2002, 0x2003, 0x2004, 0x2005, 0x2006, 0x2007,
   0x2008, 0x2009, 0x200A, 0x2028, 0x2029, 0x202F, 0x205F, 0x3000].contains c.toNat

/-- Lowercasing of a single character as strings.ToLower does it.  Besides
ASCII, the only code points whose simple Unicode lowercase mapping is an ASCII
character are the Kelvin sign and the dotted capital I; every other character
either is unchanged or maps to a non-ASCII character, which fails the token
check below either way, so this model is outcome-equivalent to Go. -/
def goLowerChar (c : Char) : Char :=
  if 'A' ≤ c ∧ c ≤ 'Z' then Char.ofNat (c.toNat + 32)
  else if c.toNat = 0x212A then 'k'
  else if c.toNat = 0x130 then 'i'
  else c

/-- The tspecials character set of mime/mediatype.go. -/
def isTSpecial (c : Char) : Bool :=
  "()<>@,;:\\\"/[]?=".toList.contains c

/-- isTokenChar of mime/mediatype.go. -/
def isTokenChar (c : Char) : Bool :=
  0x20 < c.toNat && c.toNat < 0x7f && !(isTSpecial c)

/-- consumeToken of mime/mediatype.go: longest prefix of token characters. -/
def consumeToken (v : List Char) : List Char × List Char :=
  v.span isTokenChar

/-- TrimLeftFunc with unicode.IsSpace. -/
def trimLeftSpace (l : List Char) : List Char :=
  l.dropWhile goIsSpace

/-- strings.TrimSpace. -/
def trimSpace (l : List Char) : List Char :=
  ((l.dropWhile goIsSpace).reverse.dropWhile goIsSpace).reverse

/-- checkMediaTypeDisposition of mime/mediatype.go: a token, optionally
followed by a slash and a second token. -/
def checkMediaTypeDisposition (s : List Char) : Bool :=
  let tk := consumeToken s
  if tk.1 = [] then false
  else
    match tk.2 with
    | [] => true
    | '/' :: r2 =>
      let sub := consumeToken r2
      if sub.1 = [] then false else sub.2 = []
    | _ => false

/-- The quoted-string scanner inside consumeValue of mime/mediatype.go,
including the lenient backslash rule and the CR/LF rejection.  On failure the
original input is returned as the rest, Go-style. -/
def qsLoop (orig : List Char) : List Char → List Char → List Char × List Char
  | _, [] => ([], orig)
  | acc, c :: rest =>
    if c = '"' then (acc, rest)
    else if c = '\\' then
      match rest with
      | c2 :: rest2 =>
        if isTSpecial c2 then qsLoop orig (acc ++ [c2]) rest2
        else qsLoop orig (acc ++ [c]) (c2 :: rest2)
      | [] => qsLoop orig (acc ++ [c]) []
    else if c = '\r' ∨ c = '\n' then ([], orig)
    else qsLoop orig (acc ++ [c]) rest
termination_by _ l => l.length
decreasing_by all_goals simp +arith [List.length_cons]

/-- consumeValue of mime/mediatype.go: a token or a quoted string. -/
def consumeValue (v : List Char) : List Char × List Char :=
  match v with
  | [] => ([], [])
  | '"' :: tl => qsLoop v [] tl
  | _ => consumeToken v

/-- consumeMediaParam of mime/mediatype.go.  A failed parse is signalled by
an empty parameter name together with the original input as rest. -/
def consumeMediaParam (v : List Char) : List Char × List Char × List Char :=
  match trimLeftSpace v with
  | ';' :: r1 =>
    let r2 := trimLeftSpace r1
    let tk := consumeToken r2
    let param := tk.1.map goLowerChar
    if param = [] then ([], [], v)
    else
      match trimLeftSpace tk.2 with
      | '=' :: r5 =>
        let r6 := trimLeftSpace r5
        let vr := consumeValue r6
        if vr.1 = [] ∧ vr.2 = r6 then ([], [], v)
        else (param, vr.1, vr.2)
      | _ => ([], [], v)
  | _ => ([], [], v)

/-- strings.Cut of the parameter name at the first star, as ParseMediaType
uses to route continuation parameters into a separate per-base-name map. -/
def cutStar (p : List Char) : Option (List Char) :=
  if p.contains '*' then some (p.takeWhile (fun c => !(c == '*'))) else none

/-- Lookup in the list of already-seen parameters, keyed by the map they were
stored in (none for the main params map, some base for a continuation map)
and the parameter name. -/
def seenLookup (seen : List (Option (List Char) × List Char × List Char))
    (key : Option (List Char)) (p : List Char) : Option (List Char) :=
  match seen with
  | [] => none
  | e :: rest => if e.1 = key ∧ e.2.1 = p then some e.2.2 else seenLookup rest key p

/-- The parameter loop of ParseMediaType in mime/mediatype.go, reduced to its
error outcome: true means all parameters parsed without error.  Trailing
semicolons are tolerated; a duplicate parameter name with a different value is
an error.  Each successful iteration consumes at least the leading semicolon,
so fuel equal to the input length plus one never runs out. -/
def pmLoop : Nat → List (Option (List Char) × List Char × List Char) → List Char → Bool
  | 0, _, _ => false
  | Nat.succ fuel, seen, v =>
    let v1 := trimLeftSpace v
    if v1 = [] then true
    else
      let pvr := consumeMediaParam v1
      if pvr.1 = [] then trimSpace pvr.2.2 = [';']
      else
        let key := cutStar pvr.1
        match seenLookup seen key pvr.1 with
        | some oldv => if oldv = pvr.2.1 then pmLoop fuel seen pvr.2.2 else false
        | none => pmLoop fuel ((key, pvr.1, pvr.2.1) :: seen) pvr.2.2

/-- mime.ParseMediaType, reduced to its observable outcome for this
repository: the lowercased, trimmed base media type on success, none on any
error (bad disposition, bad parameter, duplicate parameter). -/
def parseMediaTypeL (v : List Char) : Option (List Char) :=
  let base := v.takeWhile (fun c => !(c == ';'))
  let mediatype := trimSpace (base.map goLowerChar)
  if checkMediaTypeDisposition mediatype then
    let rest := v.drop base.length
    if pmLoop (rest.length + 1) [] rest then some mediatype else none
  else none

/-- ContentType is a string, as in content_type.go. -/
abbrev ContentType := String

/-- Parse one string into a ContentType, none on error. -/
def parseCT (t : String) : Option ContentType :=
  (parseMediaTypeL t.toList).map String.mk

def ContentTypeNone : ContentType := ""
def ContentTypeDefault : ContentType := "*/*"
def ContentTypeJSON : ContentType := "application/json"
def ContentTypeData : ContentType := "application/octet-stream"
def ContentTypeForm : ContentType := "multipart/form-data"
def ContentTypeEventStream : ContentType := "text/event-stream"
def ContentTypeHTML : ContentType := "text/html"
def ContentTypePlainText : ContentType := "text/plain"
def ContentTypeXML : ContentType := "text/xml"

/-- ContentTypeSet of content_type.go: an ordered set of content types with a
cursor.  A Go nil pointer to a ContentTypeSet is modelled as none at use
sites. -/
structure ContentTypeSet where
  set : List ContentType
  pos : Int
deriving DecidableEq

/-- Method Next of ContentTypeSet: advance the cursor, report whether an
element exists at the new cursor.  The receiver is a possibly nil pointer and
the mutation is modelled by returning the new state. -/
def ctsNext : Option ContentTypeSet → Bool × Option ContentTypeSet
  | none => (false, none)
  | some s => (decide (s.pos + 1 < (s.set.length : Int)), some ⟨s.set, s.pos + 1⟩)

/-- Method Type of ContentTypeSet: the element at the cursor, clamped into
range.  Go would fault on a non-nil set with an empty list, a state the
package constructors never produce; getD returns the empty type there. -/
def ctsType : Option ContentTypeSet → ContentType
  | none => ""
  | some s =>
    let p : Int :=
      if (s.set.length : Int) ≤ s.pos then (s.set.length : Int) - 1
      else if s.pos ≤ 0 then 0 else s.pos
    s.set.getD p.toNat ""

/-- Method Reset of ContentTypeSet. -/
def ctsReset : Option ContentTypeSet → Option ContentTypeSet
  | none => none
  | some s => some ⟨s.set, -1⟩

/-- Method Has of ContentTypeSet: membership regardless of cursor. -/
def ctsHas (s : Option ContentTypeSet) (t : ContentType) : Bool :=
  match s with
  | none => false
  | some s => s.set.contains t

/-- Method Types of ContentTypeSet: the content types in order. -/
def ctsTypes : Option ContentTypeSet → List ContentType
  | none => []
  | some s => s.set

/-- The accumulation loop of NewContentTypeSet: parse each string, skip
failures, skip already-present types. -/
def newCTSloop : List String → List ContentType → List ContentType
  | [], acc => acc
  | t :: ts, acc =>
    match parseCT t with
    | none => newCTSloop ts acc
    | some mt =>
      if acc.contains mt then newCTSloop ts acc
      else newCTSloop ts (acc ++ [mt])

/-- NewContentTypeSet of content_type.go.  Note that it returns the nil
pointer (none) both for an empty argument list and when no argument parses. -/
def NewContentTypeSet (types : List String) : Option ContentTypeSet :=
  if types = [] then none
  else
    let s := newCTSloop types []
    if s = [] then none else some ⟨s, -1⟩

/-- strings.Split on commas; the empty string yields one empty field. -/
def splitComma : List Char → List (List Char)
  | [] => [[]]
  | c :: rest =>
    if c = ',' then [] :: splitComma rest
    else
      match splitComma rest with
      | f :: r => (c :: f) :: r
      | [] => [[c]]

/-- The request capabilities the negotiation core reads: the Accept header,
the Content-Type header, the context override for the content type, the
status hint in the context, and the protocol major version. -/
structure Req where
  accept : String
  contentTypeHeader : String
  ctxContentType : Option ContentType
  statusHint : Option Nat
  protoMajor : Nat
deriving DecidableEq

/-- A request carrying only an Accept header, HTTP/1.x, no context values. -/
def mkReq (accept : String) : Req := ⟨accept, "", none, none, 1⟩

/-- GetAcceptedContentType of content_type.go: context override if set,
otherwise the Accept header split on commas and parsed. -/
def GetAcceptedContentType (r : Req) : Option ContentTypeSet :=
  match r.ctxContentType with
  | some ct => NewContentTypeSet [ct]
  | none => NewContentTypeSet ((splitComma r.accept.toList).map String.mk)

/-- GetContentType of content_type.go: ParseMediaType outcome, error as
Except. -/
def GetContentType (str : String) : Except Unit ContentType :=
  match parseCT str with
  | some mt => .ok mt
  | none => .error ()

/-- The header branch of GetRequestContentType. -/
def getRequestContentTypeHeader (r : Req) (dflt : ContentType) : ContentType :=
  match GetContentType r.contentTypeHeader with
  | .ok ct => ct
  | .error _ => dflt

/-- GetRequestContentType of content_type.go: non-empty context override,
otherwise the parsed Content-Type header, otherwise the given default. -/
def GetRequestContentType (r : Req) (dflt : ContentType) : ContentType :=
  match r.ctxContentType with
  | some ct => if ct ≠ "" then ct else getRequestContentTypeHeader r dflt
  | none => getRequestContentTypeHeader r dflt

/-- One operation on the response sink. -/
inductive SinkOp where
  | setHeader (key val : String)
  | delHeader (key : String)
  | writeStatus (code : Nat)
  | write (bytes : String)
  | flush
deriving DecidableEq

/-- The trace of sink operations a call performs, in order. -/
abbrev Trace := List SinkOp

/-- The status the transport sends: the first explicit WriteHeader, or 200
when the first body write happens without one. -/
def responseStatus : Trace → Nat
  | [] => 200
  | SinkOp.writeStatus c :: _ => c
  | _ :: t => responseStatus t

/-- Number of body writes in a trace. -/
def countBodyWrites (t : Trace) : Nat :=
  (t.filter (fun op => match op with | SinkOp.write _ => true | _ => false)).length

/-- http.Error from net/http, as called by the negotiation core. -/
def httpError (msg : String) (code : Nat) : Trace :=
  [SinkOp.delHeader "Content-Length",
   SinkOp.setHeader "Content-Type" "text/plain; charset=utf-8",
   SinkOp.setHeader "X-Content-Type-Options" "nosniff",
   SinkOp.writeStatus code,
   SinkOp.write (msg ++ "\n")]

deriving instance DecidableEq for Except

/-- One resolution of the reflect.Select over the request context and the
producer channel: the context fired, the channel closed, or an item arrived.
An item carries the outcome of json.Marshal on it, since the codec is an
external collaborator. -/
inductive SelEvent where
  | cancel
  | closed
  | item (json : Except String String)
deriving DecidableEq

/-- A value handed to the responder.  gonil is the nil interface; scalar
carries the oracle outcomes of the external marshalling capabilities of the
value, in the order PlainText probes them (TextMarshaler, string, Stringer)
plus the buffered outcome of the JSON and XML codecs, where the JSON field is
the output of Encoder.Encode including its trailing newline; chanV is a
channel together with the sequence of select resolutions it will produce and
the marshal oracles for the slice it buffers into. -/
inductive GoVal where
  | gonil
  | scalar (textm : Option (Except String String)) (str : Option String)
      (stringer : Option String) (json : Except String String)
      (xml : Except String String)
  | chanV (events : List SelEvent) (sliceJson : Except String String)
      (sliceXml : Except String String)
deriving DecidableEq

/-- The buffered JSON encoding of a value (json.NewEncoder Encode output,
with trailing newline).  The nil interface encodes as null. -/
def jsonEncodeVal : GoVal → Except String String
  | GoVal.gonil => .ok "null\n"
  | GoVal.scalar _ _ _ j _ => j
  | GoVal.chanV _ sj _ => sj

/-- The xml.Marshal output of a value.  xml.Marshal of the nil interface
returns empty output and no error. -/
def xmlMarshalVal : GoVal → Except String String
  | GoVal.gonil => .ok ""
  | GoVal.scalar _ _ _ _ x => x
  | GoVal.chanV _ _ sx => sx

/-- Result of one RespondFunc call: success, the sentinel decline error
ErrCanNotEncodeObject, another error with its message, or a runtime panic. -/
inductive RespondRes where
  | ok
  | errDecline
  | errOther (msg : String)
  | panicked
deriving DecidableEq

/-- RespondFunc of responder.go: writes to the sink and returns an error. -/
abbrev RespondFunc := Req → GoVal → Trace × RespondRes

/-- Message of the sentinel error ErrCanNotEncodeObject. -/
def errCanNotEncodeMsg : String := "error can not encode object"

/-- The WriteHeader call every codec performs when a status hint is present
in the request context. -/
def statusTrace (r : Req) : Trace :=
  match r.statusHint with
  | some s => [SinkOp.writeStatus s]
  | none => []

/-- JSON of responder.go: encode into a buffer first, then nosniff header,
content type, optional status, body.  A failed encode performs no sink
operation at all. -/
def JSON (r : Req) (v : GoVal) : Trace × RespondRes :=
  match jsonEncodeVal v with
  | .error e => ([], RespondRes.errOther ("JSON encode: " ++ e))
  | .ok b =>
    ([SinkOp.setHeader "X-Content-Type-Options" "nosniff",
      SinkOp.setHeader "Content-Type" "application/json; charset=utf-8"]
     ++ statusTrace r ++ [SinkOp.write b], RespondRes.ok)

/-- The xml.Header constant of encoding/xml. -/
def xmlHeaderS : String := "<?xml version=\"1.0\" encoding=\"UTF-8\"?>\n"

/-- UTF-8 encoding of one character, as the bytes of a Go string. -/
def utf8Encode (c : Char) : List Nat :=
  let n := c.toNat
  if n < 0x80 then [n]
  else if n < 0x800 then [0xC0 + n / 0x40, 0x80 + n % 0x40]
  else if n < 0x10000 then
    [0xE0 + n / 0x1000, 0x80 + (n / 0x40) % 0x40, 0x80 + n % 0x40]
  else
    [0xF0 + n / 0x40000, 0x80 + (n / 0x1000) % 0x40,
     0x80 + (n / 0x40) % 0x40, 0x80 + n % 0x40]

/-- The UTF-8 byte sequence of a string, matching how Go indexes and slices
the marshalled body byte by byte. -/
def strBytes (s : String) : List Nat :=
  (s.toList.map utf8Encode).flatten

/-- The bytes of the declaration marker the XML responder searches. -/
def xmlDeclBytes : List Nat := strBytes "<?xml"

/-- bytes.Contains as a substring search over a list. -/
def containsSub {α : Type} [BEq α] (pat : List α) : List α → Bool
  | [] => pat.isEmpty
  | c :: t => pat.isPrefixOf (c :: t) || containsSub pat t

/-- XML of responder.go: marshal first (no sink operation on failure), then
headers and optional status; the generic XML header is prepended unless the
declaration marker occurs in the first 100 bytes of the marshalled body.
The window is bytes, not characters: b[:findHeaderUntil] slices the byte
representation, so multi-byte characters narrow the searched text and a
character may be cut at the boundary (which cannot complete a match of the
pure-ASCII marker but is modelled exactly anyway). -/
def XML (r : Req) (v : GoVal) : Trace × RespondRes :=
  match xmlMarshalVal v with
  | .error e => ([], RespondRes.errOther ("XML marshal: " ++ e))
  | .ok b =>
    let body :=
      if containsSub xmlDeclBytes ((strBytes b).take 100) then [SinkOp.write b]
      else [SinkOp.write xmlHeaderS, SinkOp.write b]
    ([SinkOp.setHeader "X-Content-Type-Options" "nosniff",
      SinkOp.setHeader "Content-Type" "application/xml; charset=utf-8"]
     ++ statusTrace r ++ body, RespondRes.ok)

/-- The outcome of the type switch inside PlainText. -/
inductive PTOutcome where
  | txt (t : String)
  | err (e : String)
  | dec

/-- The type switch of PlainText: TextMarshaler first, then string, then
Stringer, otherwise decline with ErrCanNotEncodeObject. -/
def plainTextOf : GoVal → PTOutcome
  | GoVal.scalar (some (.ok t)) _ _ _ _ => PTOutcome.txt t
  | GoVal.scalar (some (.error e)) _ _ _ _ => PTOutcome.err e
  | GoVal.scalar none (some s) _ _ _ => PTOutcome.txt s
  | GoVal.scalar none none (some t) _ _ => PTOutcome.txt t
  | _ => PTOutcome.dec

/-- PlainText of responder.go. -/
def PlainText (r : Req) (v : GoVal) : Trace × RespondRes :=
  match plainTextOf v with
  | PTOutcome.dec => ([], RespondRes.errDecline)
  | PTOutcome.err e => ([], RespondRes.errOther e)
  | PTOutcome.txt t =>
    ([SinkOp.setHeader "X-Content-Type-Options" "nosniff",
      SinkOp.setHeader "Content-Type" "text/plain; charset=utf-8"]
     ++ statusTrace r ++ [SinkOp.write t], RespondRes.ok)

/-- The headers and status channelEventStream writes once, up front, before
consuming anything; Connection keep-alive only on HTTP/1. -/
def esHeaders (protoMajor : Nat) : Trace :=
  [SinkOp.setHeader "Content-Type" "text/event-stream; charset=utf-8",
   SinkOp.setHeader "Cache-Control" "no-cache"]
  ++ (if protoMajor = 1 then [SinkOp.setHeader "Connection" "keep-alive"] else [])
  ++ [SinkOp.writeStatus 200]

/-- The terminal frame on context cancellation. -/
def timeoutFrameS : String := "event: error\ndata: \x7b\"error\":\"Server Timeout\"\x7d\n\n"

/-- The terminal frame on producer close. -/
def eofFrameS : String := "event: EOF\n\n"

/-- The sink operations for one received item: a data frame and a flush, or
an inline error frame and a flush when json.Marshal failed for that item. -/
def itemTrace : Except String String → Trace
  | .ok b => [SinkOp.write ("event: data\ndata: " ++ b ++ "\n\n"), SinkOp.flush]
  | .error e => [SinkOp.write ("event: error\ndata: \x7b\"error\":\"" ++ e ++ "\"\x7d\n\n"), SinkOp.flush]

/-- The select loop of channelEventStream: context fires means one timeout
frame and return; close means one EOF frame and return; an item means its
frame and continue.  Returns the frames written and the select resolutions
left unconsumed; an exhausted resolution list means the loop is still
blocked, having written nothing further. -/
def esLoop : List SelEvent → Trace × List SelEvent
  | [] => ([], [])
  | SelEvent.cancel :: rest => ([SinkOp.write timeoutFrameS], rest)
  | SelEvent.closed :: rest => ([SinkOp.write eofFrameS], rest)
  | SelEvent.item j :: rest =>
    let t := esLoop rest
    (itemTrace j ++ t.1, t.2)

/-- channelEventStream of responder.go.  On a non-channel value the Go code
panics; the streamed items are modelled through the select resolutions the
channel carries. -/
def channelEventStream (r : Req) (v : GoVal) : Trace × RespondRes :=
  match v with
  | GoVal.chanV events _ _ =>
    (esHeaders r.protoMajor ++ (esLoop events).1, RespondRes.ok)
  | _ => ([], RespondRes.panicked)

/-- channelIntoSlice of responder.go: drain the channel into a slice.  On
context cancellation it writes a 504 Server Timeout error response and
returns the nil interface; on close it returns the buffered slice, whose
codec outcomes are the oracles carried by the channel; an exhausted
resolution list means the wait is still blocked (none). -/
def channelIntoSlice (r : Req) (events : List SelEvent)
    (sj sx : Except String String) : Trace × Option GoVal :=
  match events with
  | [] => ([], none)
  | SelEvent.cancel :: _ => (httpError "Server Timeout" 504, some GoVal.gonil)
  | SelEvent.closed :: _ => ([], some (GoVal.scalar none none none sj sx))
  | SelEvent.item _ :: rest => channelIntoSlice r rest sj sx

/-- The responder registry respondMapper: a key-unique association list from
content type to a RespondFunc; a present key with value none models a Go map
entry holding a nil function. -/
abbrev RespondMapper := List (ContentType × Option RespondFunc)

/-- Go map assignment m[k] = v: replace the value if the key is present,
otherwise add the key.  Assigning nil (none) keeps the key present. -/
def mapSet {β : Type} (m : List (ContentType × β)) (k : ContentType) (v : β) :
    List (ContentType × β) :=
  (k, v) :: m.filter (fun e => !(e.1 == k))

/-- SetResponder of responder.go. -/
def SetResponder (m : RespondMapper) (t : ContentType) (f : Option RespondFunc) :
    RespondMapper :=
  mapSet m t f

/-- Lexicographic order on strings as character lists, matching the byte
order sort.Strings uses (code point order and UTF-8 byte order agree). -/
def goStrLe : List Char → List Char → Bool
  | [], _ => true
  | _ :: _, [] => false
  | x :: xs, y :: ys =>
    if x.toNat < y.toNat then true
    else if y.toNat < x.toNat then false
    else goStrLe xs ys

/-- Insertion step for the lexicographic string sort. -/
def insertStr (s : String) : List String → List String
  | [] => [s]
  | t :: ts => if goStrLe s.toList t.toList then s :: t :: ts else t :: insertStr s ts

/-- sort.Strings: ascending lexicographic order. -/
def sortStrings : List String → List String
  | [] => []
  | s :: ss => insertStr s (sortStrings ss)

/-- SupportedResponders of responder.go: every key currently in the map
(including keys holding a nil function), sorted, packed into a set. -/
def SupportedResponders (m : RespondMapper) : Option ContentTypeSet :=
  NewContentTypeSet (sortStrings (m.map (fun e => e.1)))

/-- The initial respondMapper of responder.go. -/
def defaultRespondMapper : RespondMapper :=
  [(ContentTypeDefault, some JSON),
   (ContentTypeJSON, some JSON),
   (ContentTypeXML, some XML),
   (ContentTypeEventStream, some channelEventStream)]

/-- Overall outcome of a DefaultResponder call: normal return, a runtime
panic (a nil RespondFunc was invoked), or blocked forever in a channel wait. -/
inductive Outcome where
  | done
  | panicked
  | blocked
deriving DecidableEq

/-- The code after the negotiation loop: invoke the default responder
unconditionally, turning any error into a 500.  A missing or nil entry for
the default type would be a nil function call, hence a panic. -/
def respondFallback (m : RespondMapper) (r : Req) (v : GoVal) : Trace × Outcome :=
  match List.lookup ContentTypeDefault m with
  | some (some fn) =>
    let res := fn r v
    match res.2 with
    | RespondRes.ok => (res.1, Outcome.done)
    | RespondRes.errDecline => (res.1 ++ httpError errCanNotEncodeMsg 500, Outcome.done)
    | RespondRes.errOther e => (res.1 ++ httpError e 500, Outcome.done)
    | RespondRes.panicked => (res.1, Outcome.panicked)
  | _ => ([], Outcome.panicked)

/-- The negotiation loop of DefaultResponder: advance the cursor, skip the
event-stream type, call the registered responder for the current type; on
the decline error continue with the next type, on another error write a 500
and stop, on a present-but-nil entry the Go code calls a nil function and
panics; when the cursor is exhausted run the fallback.  The loop advances
the cursor every iteration, so fuel beyond the set length never runs out. -/
def respondLoop (m : RespondMapper) (r : Req) (v : GoVal) :
    Nat → Option ContentTypeSet → Trace × Outcome
  | 0, _ => ([], Outcome.blocked)
  | Nat.succ fuel, s =>
    let step := ctsNext s
    if step.1 then
      let t := ctsType step.2
      if t = ContentTypeEventStream then respondLoop m r v fuel step.2
      else
        match List.lookup t m with
        | some (some fn) =>
          let res := fn r v
          match res.2 with
          | RespondRes.ok => (res.1, Outcome.done)
          | RespondRes.errDecline =>
            let rec2 := respondLoop m r v fuel step.2
            (res.1 ++ rec2.1, rec2.2)
          | RespondRes.errOther e => (res.1 ++ httpError e 500, Outcome.done)
          | RespondRes.panicked => (res.1, Outcome.panicked)
        | some none => ([], Outcome.panicked)
        | none => respondLoop m r v fuel step.2
    else respondFallback m r v

/-- Enough fuel for the negotiation loop over a given set. -/
def ctsFuel : Option ContentTypeSet → Nat
  | none => 1
  | some s => s.set.length + 2

/-- Buffer a channel value and then run the negotiation loop on the result. -/
def bufferThenRespond (m : RespondMapper) (r : Req) (events : List SelEvent)
    (sj sx : Except String String) (acceptedTypes : Option ContentTypeSet) :
    Trace × Outcome :=
  match channelIntoSlice r events sj sx with
  | (tr, none) => (tr, Outcome.blocked)
  | (tr, some v2) =>
    let res := respondLoop m r v2 (ctsFuel acceptedTypes) acceptedTypes
    (tr ++ res.1, res.2)

/-- DefaultResponder of responder.go: build the accepted set once; a channel
value goes to the event-stream responder when the client accepts it and the
registry has an entry for it (a nil entry is a nil function call), and is
otherwise buffered into a slice; then the negotiation loop runs over the
accepted types with the default-responder fallback. -/
def DefaultResponder (m : RespondMapper) (r : Req) (v : GoVal) : Trace × Outcome :=
  let acceptedTypes := GetAcceptedContentType r
  match v with
  | GoVal.chanV events sj sx =>
    if ctsHas acceptedTypes ContentTypeEventStream then
      match List.lookup ContentTypeEventStream m with
      | some (some fn) =>
        let res := fn r (GoVal.chanV events sj sx)
        match res.2 with
        | RespondRes.ok => (res.1, Outcome.done)
        | RespondRes.errDecline => (res.1 ++ httpError errCanNotEncodeMsg 500, Outcome.done)
        | RespondRes.errOther e => (res.1 ++ httpError e 500, Outcome.done)
        | RespondRes.panicked => (res.1, Outcome.panicked)
      | some none => ([], Outcome.panicked)
      | none => bufferThenRespond m r events sj sx acceptedTypes
    else bufferThenRespond m r events sj sx acceptedTypes
  | v => respondLoop m r v (ctsFuel acceptedTypes) acceptedTypes

/-- Tag for a registered decode function; the decode behaviour itself is not
part of the negotiation core. -/
inductive DecodeFn where
  | decJSON
  | decXML
  | custom (n : Nat)
deriving DecidableEq

/-- The decoder registry decodeMapper of decoder.go. -/
abbrev DecodeMapper := List (ContentType × Option DecodeFn)

/-- The initial decodeMapper of decoder.go. -/
def defaultDecodeMapper : DecodeMapper :=
  [(ContentTypeJSON, some DecodeFn.decJSON),
   (ContentTypeXML, some DecodeFn.decXML)]

/-- SetDecoder of decoder.go. -/
def SetDecoder (m : DecodeMapper) (t : ContentType) (f : Option DecodeFn) :
    DecodeMapper :=
  mapSet m t f

/-- SupportedDecoders of decoder.go: every key currently in the map, sorted,
packed into a set. -/
def SupportedDecoders (m : DecodeMapper) : Option ContentTypeSet :=
  NewContentTypeSet (sortStrings (m.map (fun e => e.1)))

/-- Outcome of DefaultDecoder: ran the registered decoder, or the explicit
unable-to-decode error. -/
inductive DecodeResult where
  | ran (f : DecodeFn)
  | errUnsupported (ct : ContentType)
deriving DecidableEq

/-- DefaultDecoder of decoder.go: look up the request content type; a missing
key and a present key holding a nil function both fall through to the
unable-to-decode error. -/
def DefaultDecoder (m : DecodeMapper) (r : Req) : DecodeResult :=
  let ct := GetRequestContentType r ContentTypeNone
  match List.lookup ct m with
  | some (some d) => DecodeResult.ran d
  | _ => DecodeResult.errUnsupported ct

/-- First-occurrence deduplication: the clean specification the insertion
loop of NewContentTypeSet is proved to implement. -/
def firstOccur : List ContentType → List ContentType
  | [] => []
  | t :: ts => t :: (firstOccur ts).filter (fun x => !(x == t))

/-! ### Helper lemmas -/

lemma getD_mem : ∀ (l : List ContentType) (i : Nat), i < l.length → l.getD i "" ∈ l
  | a :: t, 0, _ => List.mem_cons_self a t
  | a :: t, Nat.succ i, h => List.mem_cons_of_mem a (getD_mem t i (by simpa using h))

lemma getD_zero_headD (l : List ContentType) : l.getD 0 "" = l.headD "" := by
  cases l <;> rfl

lemma getD_last (l : List ContentType) (h : l ≠ []) :
    l.getD (l.length - 1) "" = l.getLastD "" := by
  induction l with
  | nil => simp at h
  | cons a t ih =>
    cases t with
    | nil => rfl
    | cons b t2 =>
      have := ih (by simp)
      simpa [List.getLastD] using this

lemma NewContentTypeSet_pos (ts : List String) (s : ContentTypeSet)
    (h : NewContentTypeSet ts = some s) : s.pos = -1 := by
  unfold NewContentTypeSet at h
  by_cases hts : ts = []
  · rw [if_pos hts] at h; simp at h
  · rw [if_neg hts] at h
    dsimp only at h
    by_cases h2 : newCTSloop ts [] = []
    · rw [if_pos h2] at h; simp at h
    · rw [if_neg h2] at h
      cases h
      rfl

lemma ctsType_inrange (l : List ContentType) (q : Int) (h0 : 0 ≤ q)
    (h1 : q < (l.length : Int)) :
    ctsType (some ⟨l, q⟩) = l.getD q.toNat "" := by
  have hn : ¬ ((l.length : Int) ≤ q) := by omega
  unfold ctsType
  dsimp only
  rw [if_neg hn]
  by_cases hq : q ≤ 0
  · have hq0 : q = 0 := le_antisymm hq h0
    subst hq0
    rw [if_pos le_rfl]
  · rw [if_neg hq]

lemma respondLoop_none (m : RespondMapper) (r : Req) (v : GoVal) (fuel : Nat) :
    respondLoop m r v (fuel + 1) none = respondFallback m r v := by
  simp [respondLoop, ctsNext]

lemma respondLoop_miss (m : RespondMapper) (r : Req) (v : GoVal) :
    ∀ (fuel : Nat) (l : List ContentType) (p : Int),
      (∀ t ∈ l, List.lookup t m = none ∨ t = ContentTypeEventStream) →
      (l.length : Int) - p ≤ fuel → 1 ≤ fuel → -1 ≤ p →
      respondLoop m r v fuel (some ⟨l, p⟩) = respondFallback m r v := by
  intro fuel
  induction fuel with
  | zero => intro l p _ _ h1 _; omega
  | succ fuel ih =>
    intro l p hmiss hf _ hp
    by_cases hlt : p + 1 < (l.length : Int)
    · have hnn : (0 : Int) ≤ p + 1 := by omega
      have htn : (p + 1).toNat < l.length := by omega
      have hmem : l.getD (p + 1).toNat "" ∈ l := getD_mem l _ htn
      have hty : ctsType (some ⟨l, p + 1⟩) = l.getD (p + 1).toNat "" :=
        ctsType_inrange l _ hnn hlt
      have hrec : respondLoop m r v fuel (some ⟨l, p + 1⟩) = respondFallback m r v := by
        apply ih l (p + 1) hmiss <;> omega
      have hstep1 : (ctsNext (some ⟨l, p⟩)).1 = true := by
        simp only [ctsNext]
        exact decide_eq_true hlt
      have hstep2 : (ctsNext (some ⟨l, p⟩)).2 = some ⟨l, p + 1⟩ := rfl
      simp only [respondLoop]
      rw [hstep1, if_pos rfl, hstep2, hty]
      by_cases he : l.getD (p + 1).toNat "" = ContentTypeEventStream
      · rw [if_pos he]
        exact hrec
      · rw [if_neg he]
        rcases hmiss _ hmem with hnone | hes
        · rw [hnone]
          exact hrec
        · exact absurd hes he
    · have hstep1 : (ctsNext (some ⟨l, p⟩)).1 = false := by
        simp only [ctsNext]
        exact decide_eq_false hlt
      simp only [respondLoop]
      rw [hstep1, if_neg (by simp)]

lemma newCTSloop_allfail (ts : List String) :
    ∀ acc : List ContentType, (∀ t ∈ ts, parseCT t = none) → newCTSloop ts acc = acc := by
  induction ts with
  | nil => intro acc _; rfl
  | cons t ts ih =>
    intro acc h
    have ht : parseCT t = none := h t (List.mem_cons_self t ts)
    simp only [newCTSloop, ht]
    exact ih acc (fun u hu => h u (List.mem_cons_of_mem t hu))

lemma esLoop_items (items : List (Except String String)) (l : List SelEvent) :
    esLoop (items.map SelEvent.item ++ l)
      = ((items.map itemTrace).flatten ++ (esLoop l).1, (esLoop l).2) := by
  induction items with
  | nil => simp
  | cons j js ih => simp [esLoop, ih]

lemma firstOccur_nodup : ∀ l : List ContentType, (firstOccur l).Nodup := by
  intro l
  induction l with
  | nil => exact List.nodup_nil
  | cons t ts ih =>
    rw [firstOccur, List.nodup_cons]
    constructor
    · intro hmem
      have := List.of_mem_filter hmem
      simp at this
    · exact ih.filter _

lemma newCTSloop_eq (ts : List String) :
    ∀ acc : List ContentType,
      newCTSloop ts acc
        = acc ++ (firstOccur (ts.filterMap parseCT)).filter (fun x => !acc.contains x) := by
  induction ts with
  | nil => intro acc; simp [newCTSloop, firstOccur]
  | cons t ts ih =>
    intro acc
    rw [newCTSloop, List.filterMap_cons]
    cases hp : parseCT t with
    | none => rw [ih acc]
    | some mt =>
      dsimp only
      by_cases hc : acc.contains mt = true
      · rw [if_pos hc, ih acc, firstOccur, List.filter_cons]
        have hmt : (!acc.contains mt) = false := by rw [hc]; rfl
        rw [hmt]
        simp only [Bool.false_eq_true, if_false]
        rw [List.filter_filter]
        congr 1
        apply List.filter_congr
        intro x _
        by_cases hx : acc.contains x = true
        · have hxm : x ∈ acc := by simpa using hx
          simp [hx, hxm]
        · have hxmem : x ∉ acc := by simpa using hx
          have hmtmem : mt ∈ acc := by simpa using hc
          have hne : x ≠ mt := fun heq => hxmem (heq ▸ hmtmem)
          simp [hx, hne]
      · rw [if_neg hc, ih (acc ++ [mt]), firstOccur, List.filter_cons]
        have hmt : (!acc.contains mt) = true := by
          have : acc.contains mt = false := by simpa using hc
          rw [this]; rfl
        rw [hmt, if_pos rfl]
        rw [List.filter_filter, List.append_assoc, List.singleton_append]
        congr 2
        apply List.filter_congr
        intro x _
        by_cases hx : x = mt
        · subst hx
          simp
        · by_cases hax : x ∈ acc
          · simp [hax, hx]
          · simp [hax, hx]

lemma ctsTypes_NewContentTypeSet (ts : List String) :
    ctsTypes (NewContentTypeSet ts) = firstOccur (ts.filterMap parseCT) := by
  unfold NewContentTypeSet
  by_cases h : ts = []
  · subst h; simp [ctsTypes, firstOccur]
  · rw [if_neg h]
    have he := newCTSloop_eq ts []
    simp only [List.contains_nil, Bool.not_false, List.filter_true, List.nil_append] at he
    by_cases h2 : newCTSloop ts [] = []
    · rw [if_pos h2]
      rw [h2] at he
      simp [ctsTypes, ← he]
    · rw [if_neg h2]
      simp [ctsTypes, he]

lemma isPrefixOf_take {α : Type} [BEq α] [LawfulBEq α] (pat l : List α) (n : Nat)
    (h : pat.isPrefixOf l = true) (hn : pat.length ≤ n) :
    pat.isPrefixOf (l.take n) = true := by
  rw [List.isPrefixOf_iff_prefix] at h ⊢
  exact List.prefix_take_iff.mpr ⟨h, hn⟩

lemma prefix_containsSub {α : Type} [BEq α] (pat l : List α) (hne : pat ≠ [])
    (h : pat.isPrefixOf l = true) : containsSub pat l = true := by
  cases l with
  | nil =>
    cases pat with
    | nil => exact absurd rfl hne
    | cons p ps => simp [List.isPrefixOf] at h
  | cons c t => simp [containsSub, h]

/-! ### Claim theorems -/

lemma GetAcceptedContentType_pos (r : Req) (s : ContentTypeSet)
    (h : GetAcceptedContentType r = some s) : s.pos = -1 := by
  unfold GetAcceptedContentType at h
  rcases hct : r.ctxContentType with _ | ct <;> rw [hct] at h
  · exact NewContentTypeSet_pos _ _ h
  · exact NewContentTypeSet_pos _ _ h

/-- C1: when the accepted-type set is empty or none of the accepted content
types has a registered responder, DefaultResponder falls back to the default
JSON responder, producing the JSON encoding of the value with status 200 and
the application/json content type (with its charset suffix). -/
theorem C1_unregistered_accept_falls_back_to_json
    (r : Req) (tm : Option (Except String String)) (st sg : Option String)
    (jb : String) (x : Except String String)
    (hmiss : ∀ t, ctsHas (GetAcceptedContentType r) t = true →
        List.lookup t defaultRespondMapper = none)
    (hstatus : r.statusHint = none) :
    DefaultResponder defaultRespondMapper r (GoVal.scalar tm st sg (Except.ok jb) x)
      = ([SinkOp.setHeader "X-Content-Type-Options" "nosniff",
          SinkOp.setHeader "Content-Type" "application/json; charset=utf-8",
          SinkOp.write jb], Outcome.done)
  ∧ responseStatus (DefaultResponder defaultRespondMapper r
        (GoVal.scalar tm st sg (Except.ok jb) x)).1 = 200 := by
  have hfb : respondFallback defaultRespondMapper r (GoVal.scalar tm st sg (Except.ok jb) x)
      = ([SinkOp.setHeader "X-Content-Type-Options" "nosniff",
          SinkOp.setHeader "Content-Type" "application/json; charset=utf-8",
          SinkOp.write jb], Outcome.done) := by
    have hlk : List.lookup ContentTypeDefault defaultRespondMapper = some (some JSON) := rfl
    unfold respondFallback
    rw [hlk]
    simp [JSON, jsonEncodeVal, statusTrace, hstatus]
  have hmain : DefaultResponder defaultRespondMapper r (GoVal.scalar tm st sg (Except.ok jb) x)
      = respondFallback defaultRespondMapper r (GoVal.scalar tm st sg (Except.ok jb) x) := by
    show respondLoop defaultRespondMapper r (GoVal.scalar tm st sg (Except.ok jb) x)
        (ctsFuel (GetAcceptedContentType r)) (GetAcceptedContentType r) = _
    rcases hga : GetAcceptedContentType r with _ | s
    · exact respondLoop_none _ _ _ 0
    · rcases s with ⟨l, p⟩
      have hpos : p = -1 := GetAcceptedContentType_pos r _ hga
      subst hpos
      have hmiss2 : ∀ t ∈ l,
          List.lookup t defaultRespondMapper = none ∨ t = ContentTypeEventStream := by
        intro t ht
        left
        apply hmiss
        rw [hga]
        simp [ctsHas]
        exact ht
      exact respondLoop_miss _ _ _ (l.length + 2) l (-1) hmiss2 (by omega) (by omega) (by omega)
  rw [hmain, hfb]
  exact ⟨rfl, rfl⟩

/-- C1 witness: Accept application/pdf against the built-in registry. -/
theorem C1_unregistered_accept_falls_back_to_json_witness :
    DefaultResponder defaultRespondMapper (mkReq "application/pdf")
        (GoVal.scalar none none none (Except.ok "42\n") (Except.ok ""))
      = ([SinkOp.setHeader "X-Content-Type-Options" "nosniff",
          SinkOp.setHeader "Content-Type" "application/json; charset=utf-8",
          SinkOp.write "42\n"], Outcome.done) := by
  have h := C1_unregistered_accept_falls_back_to_json (mkReq "application/pdf")
      none none none "42\n" (Except.ok "") ?_ rfl
  · exact h.1
  · intro t ht
    have hs : GetAcceptedContentType (mkReq "application/pdf")
        = some ⟨["application/pdf"], -1⟩ := by rfl
    rw [hs] at ht
    have : t = "application/pdf" := by simpa [ctsHas] using ht
    subst this
    rfl

/-- C2: when the responder for the current accepted type declines with
ErrCanNotEncodeObject, DefaultResponder continues with the next accepted
type: with text/plain registered to PlainText, Accept text/plain followed by
application/json, and a value that is not a string, Stringer or
TextMarshaler, the response is the JSON body with status 200, not a 500. -/
theorem C2_decline_then_next_type (jb : String) (x : Except String String) :
    DefaultResponder (SetResponder defaultRespondMapper ContentTypePlainText (some PlainText))
        (mkReq "text/plain, application/json")
        (GoVal.scalar none none none (Except.ok jb) x)
      = ([SinkOp.setHeader "X-Content-Type-Options" "nosniff",
          SinkOp.setHeader "Content-Type" "application/json; charset=utf-8",
          SinkOp.write jb], Outcome.done)
  ∧ responseStatus (DefaultResponder
        (SetResponder defaultRespondMapper ContentTypePlainText (some PlainText))
        (mkReq "text/plain, application/json")
        (GoVal.scalar none none none (Except.ok jb) x)).1 = 200 := by
  constructor <;> rfl

/-- C3: building the accepted set never faults for any header string; fields
that fail media-type parsing are dropped, quality parameters are ignored,
duplicates are removed keeping the first occurrence, and order is preserved:
the set is exactly the first-occurrence deduplication of the parses, and it
never holds duplicates; the example header yields the two-element set. -/
theorem C3_accept_header_parsing :
    GetAcceptedContentType (mkReq "application/json, text/html;q=0.9, application/json")
        = some ⟨["application/json", "text/html"], -1⟩
  ∧ (∀ ts : List String, ctsTypes (NewContentTypeSet ts) = firstOccur (ts.filterMap parseCT))
  ∧ (∀ ts : List String, (ctsTypes (NewContentTypeSet ts)).Nodup) := by
  refine ⟨by rfl, ctsTypes_NewContentTypeSet, fun ts => ?_⟩
  rw [ctsTypes_NewContentTypeSet]
  exact firstOccur_nodup _

/-- C4: channelEventStream writes the event-stream headers and the 200 status
exactly once up front, emits one frame per item in producer order (a data
frame, or an inline error frame for an item whose JSON marshalling fails,
after which the loop continues), and terminates with exactly one terminal
frame: an EOF frame when the producer closes, a single timeout error frame
when the request context is cancelled; no frames follow the terminal frame
and no select resolutions are consumed past the terminal one. -/
theorem C4_event_stream_frames :
    (∀ (r : Req) (items : List (Except String String)) (rest : List SelEvent)
        (sj sx : Except String String),
        channelEventStream r
            (GoVal.chanV (items.map SelEvent.item ++ SelEvent.closed :: rest) sj sx)
          = (esHeaders r.protoMajor ++ ((items.map itemTrace).flatten
              ++ [SinkOp.write eofFrameS]), RespondRes.ok))
  ∧ (∀ (r : Req) (items : List (Except String String)) (rest : List SelEvent)
        (sj sx : Except String String),
        channelEventStream r
            (GoVal.chanV (items.map SelEvent.item ++ SelEvent.cancel :: rest) sj sx)
          = (esHeaders r.protoMajor ++ ((items.map itemTrace).flatten
              ++ [SinkOp.write timeoutFrameS]), RespondRes.ok))
  ∧ (∀ (items : List (Except String String)) (rest : List SelEvent) (term : SelEvent),
        term = SelEvent.closed ∨ term = SelEvent.cancel →
        (esLoop (items.map SelEvent.item ++ term :: rest)).2 = rest)
  ∧ (∀ pm : Nat,
        (esHeaders pm).filter
            (fun op => match op with | SinkOp.writeStatus _ => true | _ => false)
          = [SinkOp.writeStatus 200]) := by
  refine ⟨?_, ?_, ?_, ?_⟩
  · intro r items rest sj sx
    simp [channelEventStream, esLoop_items, esLoop]
  · intro r items rest sj sx
    simp [channelEventStream, esLoop_items, esLoop]
  · intro items rest term hterm
    rcases hterm with h | h <;> subst h <;> simp [esLoop_items, esLoop]
  · intro pm
    by_cases h : pm = 1 <;> simp [esHeaders, h]

/-- C4 witness: the loop leaves the resolutions after the terminal one
unconsumed on a concrete input. -/
theorem C4_event_stream_frames_witness :
    (esLoop ([SelEvent.item (Except.ok "1"), SelEvent.item (Except.ok "2")]
        ++ SelEvent.closed :: [SelEvent.cancel])).2 = [SelEvent.cancel] :=
  C4_event_stream_frames.2.2.1 [Except.ok "1", Except.ok "2"] [SelEvent.cancel]
    SelEvent.closed (Or.inl rfl)

/-- C5 (code bug evidence): when a channel value is buffered and the request
context is cancelled during buffering, DefaultResponder writes the 504
Server Timeout error response and then continues into the negotiation loop
with the nil value, writing a second body (the JSON encoding null): two body
writes in a single call, where the claim and the spec require a single error
response. -/
theorem C5_buffered_cancel_writes_twice :
    DefaultResponder defaultRespondMapper (mkReq "application/json")
        (GoVal.chanV [SelEvent.cancel] (Except.ok "[]\n") (Except.ok ""))
      = (httpError "Server Timeout" 504
          ++ [SinkOp.setHeader "X-Content-Type-Options" "nosniff",
              SinkOp.setHeader "Content-Type" "application/json; charset=utf-8",
              SinkOp.write "null\n"], Outcome.done)
  ∧ countBodyWrites (DefaultResponder defaultRespondMapper (mkReq "application/json")
        (GoVal.chanV [SelEvent.cancel] (Except.ok "[]\n") (Except.ok ""))).1 = 2 := by
  constructor
  · rfl
  · rfl

/-- C6 (code bug evidence): SetResponder with a nil function keeps the map
key, so SupportedResponders still lists the type and DefaultResponder calls
the nil function and panics when that type is accepted; SetDecoder with a nil
function also keeps the key in SupportedDecoders, although DefaultDecoder
does treat the nil entry as unregistered.  The claim and the doc comments of
SetResponder and SetDecoder say a nil function removes the entry. -/
theorem C6_nil_registration_keeps_key :
    ctsHas (SupportedResponders (SetResponder defaultRespondMapper ContentTypeJSON none))
        ContentTypeJSON = true
  ∧ (DefaultResponder (SetResponder defaultRespondMapper ContentTypeJSON none)
        (mkReq "application/json")
        (GoVal.scalar none none none (Except.ok "42\n") (Except.ok ""))).2
      = Outcome.panicked
  ∧ ctsHas (SupportedDecoders (SetDecoder defaultDecodeMapper ContentTypeJSON none))
        ContentTypeJSON = true
  ∧ DefaultDecoder (SetDecoder defaultDecodeMapper ContentTypeJSON none)
        ⟨"", "application/json", none, none, 1⟩
      = DecodeResult.errUnsupported ContentTypeJSON := by
  refine ⟨?_, ?_, ?_, ?_⟩ <;> decide

/-- C7 counterexample: for the empty Accept header (every field fails to
parse), the constructed accepted-type set is the nil pointer, not an
empty-but-valid set value. -/
theorem C7_empty_header_yields_nil_set :
    GetAcceptedContentType (mkReq "") = none := by
  rfl

/-- C7 amended: when every field fails to parse, or the header is empty,
NewContentTypeSet returns the nil (absent) set; every operation on the nil
set is safe and behaves as the empty set, and DefaultResponder treats the
missing entries by falling back to the default (JSON) responder, never as an
error. -/
theorem C7_all_fail_nil_set_falls_back
    (ts : List String) (h : ∀ t ∈ ts, parseCT t = none) :
    NewContentTypeSet ts = none
  ∧ (∀ (jb : String) (x : Except String String) (tm : Option (Except String String))
        (st sg : Option String),
        DefaultResponder defaultRespondMapper (mkReq "")
            (GoVal.scalar tm st sg (Except.ok jb) x)
          = ([SinkOp.setHeader "X-Content-Type-Options" "nosniff",
              SinkOp.setHeader "Content-Type" "application/json; charset=utf-8",
              SinkOp.write jb], Outcome.done)) := by
  constructor
  · unfold NewContentTypeSet
    by_cases hts : ts = []
    · rw [if_pos hts]
    · rw [if_neg hts]
      dsimp only
      rw [newCTSloop_allfail ts [] h, if_pos rfl]
  · intro jb x tm st sg
    rfl

/-- C7 witness. -/
theorem C7_all_fail_nil_set_falls_back_witness :
    NewContentTypeSet [""] = none :=
  (C7_all_fail_nil_set_falls_back [""] (by decide)).1

/-- C8: on the nil set, Next always returns false and Type returns the empty
content type without faulting; on a non-empty set, Type before the first Next
returns the first element, Type past the end returns the last element
(clamped cursor), and once Next has returned false it keeps returning
false. -/
theorem C8_cursor_semantics :
    ctsNext none = (false, none)
  ∧ ctsType none = ""
  ∧ (∀ l : List ContentType, l ≠ [] → ctsType (some ⟨l, -1⟩) = l.headD "")
  ∧ (∀ (l : List ContentType) (p : Int), l ≠ [] → (l.length : Int) ≤ p →
        ctsType (some ⟨l, p⟩) = l.getLastD "")
  ∧ (∀ s : Option ContentTypeSet,
        (ctsNext s).1 = false → (ctsNext (ctsNext s).2).1 = false) := by
  refine ⟨rfl, rfl, ?_, ?_, ?_⟩
  · intro l _
    unfold ctsType
    dsimp only
    rw [if_neg (by omega), if_pos (by omega)]
    exact getD_zero_headD l
  · intro l p hne hp
    unfold ctsType
    dsimp only
    rw [if_pos hp]
    have hlen : 1 ≤ l.length := by
      cases l with
      | nil => exact absurd rfl hne
      | cons a t => simp
    have htn : ((l.length : Int) - 1).toNat = l.length - 1 := by omega
    rw [htn]
    exact getD_last l hne
  · intro s h
    cases s with
    | none => rfl
    | some s =>
      have hs : ¬ (s.pos + 1 < (s.set.length : Int)) := by
        simpa [ctsNext] using h
      simp only [ctsNext]
      exact decide_eq_false (by omega)

/-- C8 witness. -/
theorem C8_cursor_semantics_witness :
    ctsType (some ⟨["application/json", "text/html"], -1⟩)
        = List.headD ["application/json", "text/html"] ""
  ∧ ctsType (some ⟨["application/json", "text/html"], (7 : Int)⟩)
        = List.getLastD ["application/json", "text/html"] "" :=
  ⟨C8_cursor_semantics.2.2.1 ["application/json", "text/html"] (by decide),
   C8_cursor_semantics.2.2.2.1 ["application/json", "text/html"] 7 (by decide) (by decide)⟩

/-- C9: the XML responder prepends the generic XML declaration to the
marshalled body if and only if the declaration marker does not occur within
the first 100 bytes of the marshalled output; in particular, a body that
already starts with an XML declaration is written unchanged, so exactly one
declaration appears. -/
theorem C9_xml_declaration (r : Req) (tm : Option (Except String String))
    (st sg : Option String) (j : Except String String) (b : String) :
    ((XML r (GoVal.scalar tm st sg j (Except.ok b))).1
        = [SinkOp.setHeader "X-Content-Type-Options" "nosniff",
           SinkOp.setHeader "Content-Type" "application/xml; charset=utf-8"]
          ++ statusTrace r ++ [SinkOp.write xmlHeaderS, SinkOp.write b]
      ↔ containsSub xmlDeclBytes ((strBytes b).take 100) = false)
  ∧ (containsSub xmlDeclBytes ((strBytes b).take 100) = true →
        (XML r (GoVal.scalar tm st sg j (Except.ok b))).1
          = [SinkOp.setHeader "X-Content-Type-Options" "nosniff",
             SinkOp.setHeader "Content-Type" "application/xml; charset=utf-8"]
            ++ statusTrace r ++ [SinkOp.write b])
  ∧ (xmlDeclBytes.isPrefixOf (strBytes b) = true →
        (XML r (GoVal.scalar tm st sg j (Except.ok b))).1
          = [SinkOp.setHeader "X-Content-Type-Options" "nosniff",
             SinkOp.setHeader "Content-Type" "application/xml; charset=utf-8"]
            ++ statusTrace r ++ [SinkOp.write b]) := by
  by_cases h : containsSub xmlDeclBytes ((strBytes b).take 100) = true
  · have he : (XML r (GoVal.scalar tm st sg j (Except.ok b))).1
        = [SinkOp.setHeader "X-Content-Type-Options" "nosniff",
           SinkOp.setHeader "Content-Type" "application/xml; charset=utf-8"]
          ++ statusTrace r ++ [SinkOp.write b] := by
      simp [XML, xmlMarshalVal, h]
    refine ⟨⟨?_, ?_⟩, fun _ => he, fun _ => he⟩
    · intro heq
      rw [he] at heq
      have hlen := congrArg List.length heq
      simp at hlen
    · intro hcf
      rw [hcf] at h
      simp at h
  · have hf : containsSub xmlDeclBytes ((strBytes b).take 100) = false := by
      simpa using h
    have he : (XML r (GoVal.scalar tm st sg j (Except.ok b))).1
        = [SinkOp.setHeader "X-Content-Type-Options" "nosniff",
           SinkOp.setHeader "Content-Type" "application/xml; charset=utf-8"]
          ++ statusTrace r ++ [SinkOp.write xmlHeaderS, SinkOp.write b] := by
      simp [XML, xmlMarshalVal, hf]
    refine ⟨⟨fun _ => hf, fun _ => he⟩, fun hct => ?_, fun hp => ?_⟩
    · rw [hct] at hf
      simp at hf
    · have hcs : containsSub xmlDeclBytes ((strBytes b).take 100) = true := by
        apply prefix_containsSub _ _ (by decide)
        exact isPrefixOf_take _ _ _ hp (by decide)
      rw [hcs] at hf
      simp at hf

/-- C9 witness: a body that already carries a declaration is written without
a second declaration. -/
theorem C9_xml_declaration_witness :
    (XML (mkReq "") (GoVal.scalar none none none (Except.ok "")
        (Except.ok "<?xml version=\"1.0\"?><a/>"))).1
      = [SinkOp.setHeader "X-Content-Type-Options" "nosniff",
         SinkOp.setHeader "Content-Type" "application/xml; charset=utf-8",
         SinkOp.write "<?xml version=\"1.0\"?><a/>"] :=
  ((C9_xml_declaration (mkReq "") none none none (Except.ok "")
      "<?xml version=\"1.0\"?><a/>").2.2 (by decide)).trans (by decide)

/-- C10: when the JSON marshalling of the value fails, JSON returns the wrapped
error and performs no sink operation at all: no header, no status, no body
bytes, because the encoding is buffered before any write. -/
theorem C10_json_error_atomic (r : Req) (v : GoVal) (e : String)
    (h : jsonEncodeVal v = Except.error e) :
    JSON r v = ([], RespondRes.errOther ("JSON encode: " ++ e)) := by
  simp [JSON, h]

/-- C10 witness. -/
theorem C10_json_error_atomic_witness :
    JSON (mkReq "") (GoVal.scalar none none none (Except.error "boom") (Except.ok ""))
      = ([], RespondRes.errOther ("JSON encode: " ++ "boom")) :=
  C10_json_error_atomic (mkReq "")
    (GoVal.scalar none none none (Except.error "boom") (Except.ok "")) "boom" rfl

end Render
